import Mathlib

/-!
Verification of the tiktok-downloader-backend repository core.

The repository contains near-duplicate revisions of one FastAPI service:
`app.py` (the full revision, v2.0.0), `app1.py` (a minimal early revision)
and `app (1).py` (v3.0.0, supplied unnamed).  This file gives a shallow
embedding of the code that carries the real invariants — the sliding-window
rate limiter, the URL validator, the filename sanitizer, and the
download-and-stream lifecycle with temporary-workspace cleanup — and proves
or refutes the specification claims about them.

Modelling conventions:
* time is `Nat` (Python `datetime` instants, abstracted to a monotone clock;
  the two `datetime.now()` calls inside one `check_rate_limit` invocation are
  modelled as a single instant);
* `datetime` comparisons `t > now - timedelta(seconds=W)` are rendered
  subtraction-free as `now < t + W`, which is the same inequality over the
  integers and avoids truncated `Nat` subtraction;
* Python's `dict` is an association list whose keys are unique
  (`keysNodup`); `defaultdict(list)` lookup of an absent key yields `[]`;
* file bytes are `Nat`s, a file's content is a `List Nat`;
* the external pieces (the `validators` library's syntactic URL check, the
  `yt_dlp` gateway) are inputs to the model: a `Bool` oracle for
  `validators.url`, and a `GatewayResult` describing what `ydl.download`
  did.
-/

namespace VideoBackend

/-! ## Configuration (`app.py`, `class Config`).
`app (1).py` uses the same `RATE_LIMIT_WINDOW`, `RATE_LIMIT_MAX_REQUESTS`
and `CHUNK_SIZE` values. -/

/-- `Config.RATE_LIMIT_WINDOW = 20` (seconds). -/
def RATE_LIMIT_WINDOW : Nat := 20

/-- `Config.RATE_LIMIT_MAX_REQUESTS = 15`. -/
def RATE_LIMIT_MAX_REQUESTS : Nat := 15

/-- `Config.CHUNK_SIZE = 1024 * 1024` (1 MiB streaming chunks). -/
def CHUNK_SIZE : Nat := 1024 * 1024

/-! ## Rate limiter state (`app.py` lines 62-106, `app (1).py` lines 42-68;
the two revisions' `RateLimiter` bodies are identical up to logging). -/

/-- The `RateLimiter` object: `self.requests` (a dict from client IP to the
list of admitted-request timestamps) and `self.last_cleanup`. -/
structure RLState where
  requests : List (String × List Nat)
  lastCleanup : Nat
deriving DecidableEq

/-- Dict lookup with the `defaultdict(list)` default: the value stored at
the first entry whose key is `ip`, or `[]` when no entry has that key. -/
def getAssoc (reqs : List (String × List Nat)) (ip : String) : List Nat :=
  match reqs.find? (fun p => p.1 == ip) with
  | some p => p.2
  | none => []

/-- Dict assignment `self.requests[ip] = w`: replace the value in place when
the key is present, append a new entry otherwise. -/
def setAssoc (reqs : List (String × List Nat)) (ip : String) (w : List Nat) :
    List (String × List Nat) :=
  if reqs.any (fun p => p.1 == ip) then
    reqs.map (fun p => if p.1 == ip then (ip, w) else p)
  else
    reqs ++ [(ip, w)]

/-- `self.requests[ip]` read on an `RLState`. -/
def getRequests (s : RLState) (ip : String) : List Nat :=
  getAssoc s.requests ip

/-- `self.requests[ip] = w` on an `RLState`. -/
def setRequests (s : RLState) (ip : String) (w : List Nat) : RLState :=
  { s with requests := setAssoc s.requests ip w }

/-- Python-dict key uniqueness: the association list carries each key at
most once. -/
def keysNodup (s : RLState) : Prop :=
  (s.requests.map Prod.fst).Nodup

instance (s : RLState) : Decidable (keysNodup s) := by
  unfold keysNodup; infer_instance

/-- The map rebuilt by `_cleanup_old_entries`: every client's list filtered
by `t > cutoff` with `cutoff = now - 2 * RATE_LIMIT_WINDOW`, then every
client whose filtered list is empty deleted (`del self.requests[ip]`). -/
def cleanupRequests (now : Nat) (reqs : List (String × List Nat)) :
    List (String × List Nat) :=
  (reqs.map (fun p =>
    (p.1, p.2.filter (fun t => decide (now < t + 2 * RATE_LIMIT_WINDOW))))).filter
    (fun p => !p.2.isEmpty)

/-- `RateLimiter._cleanup_old_entries` (`app.py` lines 69-82).  The guard is
Python's `(now - self.last_cleanup).seconds > 300`: `timedelta.seconds` is
the seconds component of the elapsed time, i.e. the elapsed seconds modulo
86400 (for a nonnegative elapsed time, which a monotone clock gives). -/
def cleanup_old_entries (now : Nat) (s : RLState) : RLState :=
  if 300 < (now - s.lastCleanup) % 86400 then
    { requests := cleanupRequests now s.requests, lastCleanup := now }
  else s

/-- `RateLimiter.check_rate_limit` (`app.py` lines 84-104): run the
opportunistic cleanup, overwrite the client's list with the timestamps newer
than `now - RATE_LIMIT_WINDOW`, then either raise HTTP 429 (result `false`)
when that list already has `RATE_LIMIT_MAX_REQUESTS` entries, or append
`now` and admit (result `true`). -/
def check_rate_limit (ip : String) (now : Nat) (s : RLState) : Bool × RLState :=
  let s1 := cleanup_old_entries now s
  let purged := (getRequests s1 ip).filter (fun t => decide (now < t + RATE_LIMIT_WINDOW))
  let s2 := setRequests s1 ip purged
  if RATE_LIMIT_MAX_REQUESTS ≤ purged.length then
    (false, s2)
  else
    (true, setRequests s2 ip (purged ++ [now]))

/-- Sequential admission checks by one client: run `check_rate_limit ip` at
each time in `ts`, collecting the results in order. -/
def runChecks (ip : String) (ts : List Nat) (s : RLState) : List Bool × RLState :=
  match ts with
  | [] => ([], s)
  | t :: rest =>
    let r := check_rate_limit ip t s
    let rr := runChecks ip rest r.2
    (r.1 :: rr.1, rr.2)

/-! ### Dictionary lemmas -/

theorem getAssoc_cons_of_pos (a : String × List Nat) (rest : List (String × List Nat))
    (ip : String) (h : (a.1 == ip) = true) : getAssoc (a :: rest) ip = a.2 := by
  unfold getAssoc
  rw [List.find?_cons_of_pos _ (by exact h)]

theorem getAssoc_cons_of_neg (a : String × List Nat) (rest : List (String × List Nat))
    (ip : String) (h : (a.1 == ip) = false) : getAssoc (a :: rest) ip = getAssoc rest ip := by
  unfold getAssoc
  rw [List.find?_cons_of_neg _ (by simp [h])]

theorem getAssocKV_cons_of_pos (k : String) (v : List Nat)
    (rest : List (String × List Nat)) (ip : String) (h : (k == ip) = true) :
    getAssoc ((k, v) :: rest) ip = v :=
  getAssoc_cons_of_pos (k, v) rest ip h

theorem getAssocKV_cons_of_neg (k : String) (v : List Nat)
    (rest : List (String × List Nat)) (ip : String) (h : (k == ip) = false) :
    getAssoc ((k, v) :: rest) ip = getAssoc rest ip :=
  getAssoc_cons_of_neg (k, v) rest ip h

theorem getAssoc_eq_nil_of_not_mem_keys (reqs : List (String × List Nat)) (ip : String)
    (h : ip ∉ reqs.map Prod.fst) : getAssoc reqs ip = [] := by
  unfold getAssoc
  have : reqs.find? (fun p => p.1 == ip) = none := by
    rw [List.find?_eq_none]
    intro p hp hpe
    exact h (List.mem_map.mpr ⟨p, hp, eq_of_beq hpe⟩)
  rw [this]

theorem assoc_find?_replace_of_any (reqs : List (String × List Nat)) (ip : String)
    (w : List Nat) (h : reqs.any (fun p => p.1 == ip) = true) :
    (reqs.map (fun p => if p.1 == ip then (ip, w) else p)).find? (fun p => p.1 == ip)
      = some (ip, w) := by
  induction reqs with
  | nil => simp at h
  | cons a rest ih =>
    by_cases ha : (a.1 == ip) = true
    · simp only [List.map_cons, if_pos ha]
      rw [List.find?_cons_of_pos]
      simp
    · have h' : rest.any (fun p => p.1 == ip) = true := by
        simp only [List.any_cons, ha, Bool.false_or] at h
        exact h
      simp only [List.map_cons, if_neg ha]
      rw [List.find?_cons_of_neg _ (by simpa using ha)]
      exact ih h'

theorem getAssoc_setAssoc_same (reqs : List (String × List Nat)) (ip : String)
    (w : List Nat) : getAssoc (setAssoc reqs ip w) ip = w := by
  unfold setAssoc
  by_cases h : reqs.any (fun p => p.1 == ip) = true
  · rw [if_pos h]
    unfold getAssoc
    rw [assoc_find?_replace_of_any reqs ip w h]
  · rw [if_neg h]
    unfold getAssoc
    rw [List.find?_append]
    have hnone : reqs.find? (fun p => p.1 == ip) = none := by
      rw [List.find?_eq_none]
      intro p hp hpe
      exact h (List.any_eq_true.mpr ⟨p, hp, hpe⟩)
    rw [hnone]
    simp [List.find?]

theorem getAssoc_setAssoc_ne (reqs : List (String × List Nat)) (ip j : String)
    (w : List Nat) (hj : (j == ip) = false) :
    getAssoc (setAssoc reqs ip w) j = getAssoc reqs j := by
  have hne : j ≠ ip := by simpa using hj
  unfold setAssoc
  by_cases h : reqs.any (fun p => p.1 == ip) = true
  · rw [if_pos h]
    clear h
    induction reqs with
    | nil => rfl
    | cons a rest ih =>
      by_cases ha : (a.1 == ip) = true
      · have haj : ((ip, w).1 == j) = false := by
          simp only [beq_eq_false_iff_ne]
          exact fun hc => hne hc.symm
        have haj2 : (a.1 == j) = false := by
          rw [eq_of_beq ha]
          simp only [beq_eq_false_iff_ne]
          exact fun hc => hne hc.symm
        rw [List.map_cons, if_pos ha, getAssoc_cons_of_neg _ _ _ haj,
          getAssoc_cons_of_neg _ _ _ haj2]
        exact ih
      · rw [List.map_cons, if_neg ha]
        by_cases haj : (a.1 == j) = true
        · rw [getAssoc_cons_of_pos _ _ _ haj, getAssoc_cons_of_pos _ _ _ haj]
        · rw [getAssoc_cons_of_neg _ _ _ (by simpa using haj),
            getAssoc_cons_of_neg _ _ _ (by simpa using haj)]
          exact ih
  · rw [if_neg h]
    unfold getAssoc
    rw [List.find?_append]
    have hipj : ((ip, w).1 == j) = false := by
      simp only [beq_eq_false_iff_ne]
      exact fun hc => hne hc.symm
    cases hfind : reqs.find? (fun p => p.1 == j) with
    | some p => simp [Option.or]
    | none => simp [Option.or, List.find?, hipj]

theorem keys_setAssoc_nodup (reqs : List (String × List Nat)) (ip : String)
    (w : List Nat) (hnd : (reqs.map Prod.fst).Nodup) :
    ((setAssoc reqs ip w).map Prod.fst).Nodup := by
  unfold setAssoc
  by_cases h : reqs.any (fun p => p.1 == ip) = true
  · rw [if_pos h, List.map_map]
    have hfst : (Prod.fst ∘ fun p : String × List Nat =>
        if p.1 == ip then (ip, w) else p) = Prod.fst := by
      funext p
      by_cases hp : p.1 = ip
      · simp [hp]
      · simp [hp]
    rw [hfst]
    exact hnd
  · rw [if_neg h, List.map_append]
    have hnotin : ip ∉ reqs.map Prod.fst := by
      intro hc
      obtain ⟨p, hp, hpe⟩ := List.mem_map.mp hc
      exact h (List.any_eq_true.mpr ⟨p, hp, by simp [hpe]⟩)
    simp only [List.map_cons, List.map_nil]
    exact List.Nodup.append hnd (List.nodup_singleton ip)
      (by simpa [List.disjoint_singleton] using hnotin)

theorem keys_cleanupRequests_subset (now : Nat) (reqs : List (String × List Nat)) :
    ∀ k ∈ (cleanupRequests now reqs).map Prod.fst, k ∈ reqs.map Prod.fst := by
  intro k hk
  obtain ⟨p, hp, hpe⟩ := List.mem_map.mp hk
  have hp' := List.mem_filter.mp hp
  obtain ⟨q, hq, hqe⟩ := List.mem_map.mp hp'.1
  exact List.mem_map.mpr ⟨q, hq, by rw [← hqe] at hpe; simpa using hpe⟩

theorem keys_cleanupRequests_nodup (now : Nat) (reqs : List (String × List Nat))
    (hnd : (reqs.map Prod.fst).Nodup) :
    ((cleanupRequests now reqs).map Prod.fst).Nodup := by
  have h1 : (cleanupRequests now reqs).Sublist
      (reqs.map (fun p => (p.1, p.2.filter (fun t => decide (now < t + 2 * RATE_LIMIT_WINDOW))))) :=
    List.filter_sublist _
  have h2 := h1.map Prod.fst
  rw [List.map_map] at h2
  have hfst : (Prod.fst ∘ fun p : String × List Nat =>
      (p.1, p.2.filter (fun t => decide (now < t + 2 * RATE_LIMIT_WINDOW)))) = Prod.fst := by
    funext p; rfl
  rw [hfst] at h2
  exact hnd.sublist h2

theorem cleanupRequests_cons (now : Nat) (a : String × List Nat)
    (rest : List (String × List Nat)) :
    cleanupRequests now (a :: rest)
      = if (a.2.filter (fun t => decide (now < t + 2 * RATE_LIMIT_WINDOW))).isEmpty
        then cleanupRequests now rest
        else (a.1, a.2.filter (fun t => decide (now < t + 2 * RATE_LIMIT_WINDOW)))
          :: cleanupRequests now rest := by
  unfold cleanupRequests
  rw [List.map_cons, List.filter_cons]
  cases hv : (a.2.filter (fun t => decide (now < t + 2 * RATE_LIMIT_WINDOW))).isEmpty
  · rw [if_pos (by simp [hv]), if_neg (by simp [hv])]
  · rw [if_neg (by simp [hv]), if_pos (by simp [hv])]

theorem getAssoc_cleanupRequests (now : Nat) (reqs : List (String × List Nat)) (ip : String)
    (hnd : (reqs.map Prod.fst).Nodup) :
    getAssoc (cleanupRequests now reqs) ip
      = (getAssoc reqs ip).filter (fun t => decide (now < t + 2 * RATE_LIMIT_WINDOW)) := by
  induction reqs with
  | nil => rfl
  | cons a rest ih =>
    have hnd0 := List.nodup_cons.mp (by simpa using hnd :
      (a.1 :: rest.map Prod.fst).Nodup)
    have hanotin : a.1 ∉ rest.map Prod.fst := hnd0.1
    have hnd' : (rest.map Prod.fst).Nodup := hnd0.2
    rw [cleanupRequests_cons]
    by_cases hk : (a.1 == ip) = true
    · have hkey : a.1 = ip := eq_of_beq hk
      rw [getAssoc_cons_of_pos _ _ _ hk]
      cases hv : (a.2.filter (fun t => decide (now < t + 2 * RATE_LIMIT_WINDOW))).isEmpty
      · rw [if_neg (by simp [hv]), getAssocKV_cons_of_pos _ _ _ _ hk]
      · rw [if_pos (by simp [hv])]
        have hempty : a.2.filter (fun t => decide (now < t + 2 * RATE_LIMIT_WINDOW)) = [] := by
          simpa using hv
        rw [hempty]
        apply getAssoc_eq_nil_of_not_mem_keys
        intro hc
        have : a.1 ∈ rest.map Prod.fst := by
          rw [hkey]
          exact keys_cleanupRequests_subset now rest ip hc
        exact hanotin this
    · have hkb : (a.1 == ip) = false := by simpa using hk
      rw [getAssoc_cons_of_neg _ _ _ hkb]
      cases hv : (a.2.filter (fun t => decide (now < t + 2 * RATE_LIMIT_WINDOW))).isEmpty
      · rw [if_neg (by simp [hv]), getAssocKV_cons_of_neg _ _ _ _ hkb]
        exact ih hnd'
      · rw [if_pos (by simp [hv])]
        exact ih hnd'

/-- Key membership in the client map (`ip in self.requests` on the dict). -/
def hasClient (s : RLState) (j : String) : Bool :=
  s.requests.any (fun p => p.1 == j)

theorem cleanupRequests_removes_stale (now : Nat) (reqs : List (String × List Nat))
    (j : String) (hnd : (reqs.map Prod.fst).Nodup)
    (hstale : ∀ t ∈ getAssoc reqs j, t + 2 * RATE_LIMIT_WINDOW ≤ now) :
    ((cleanupRequests now reqs).any (fun p => p.1 == j)) = false := by
  induction reqs with
  | nil => rfl
  | cons a rest ih =>
    have hnd0 := List.nodup_cons.mp (by simpa using hnd :
      (a.1 :: rest.map Prod.fst).Nodup)
    have hanotin : a.1 ∉ rest.map Prod.fst := hnd0.1
    have hnd' : (rest.map Prod.fst).Nodup := hnd0.2
    rw [cleanupRequests_cons]
    by_cases hk : (a.1 == j) = true
    · have hget : getAssoc (a :: rest) j = a.2 := getAssoc_cons_of_pos _ _ _ hk
      have hempty : a.2.filter (fun t => decide (now < t + 2 * RATE_LIMIT_WINDOW)) = [] := by
        rw [List.filter_eq_nil_iff]
        intro t ht
        have := hstale t (by rw [hget]; exact ht)
        simp
        omega
      rw [hempty]
      rw [if_pos (show ([] : List Nat).isEmpty = true from rfl)]
      rw [List.any_eq_false]
      intro p hp
      intro hpe
      have hkeys : p.1 ∈ rest.map Prod.fst :=
        keys_cleanupRequests_subset now rest p.1 (List.mem_map.mpr ⟨p, hp, rfl⟩)
      rw [eq_of_beq hpe, ← eq_of_beq hk] at hkeys
      exact hanotin hkeys
    · have hkb : (a.1 == j) = false := by simpa using hk
      have hget : getAssoc (a :: rest) j = getAssoc rest j := getAssoc_cons_of_neg _ _ _ hkb
      have hstale' : ∀ t ∈ getAssoc rest j, t + 2 * RATE_LIMIT_WINDOW ≤ now := by
        intro t ht
        exact hstale t (by rw [hget]; exact ht)
      cases hv : (a.2.filter (fun t => decide (now < t + 2 * RATE_LIMIT_WINDOW))).isEmpty
      · rw [if_neg (by simp [hv]), List.any_cons]
        rw [ih hnd' hstale']
        simpa using hkb
      · rw [if_pos (by simp [hv])]
        exact ih hnd' hstale'

/-! ### Rate-limiter state lemmas -/

theorem keysNodup_cleanup (now : Nat) (s : RLState) (hnd : keysNodup s) :
    keysNodup (cleanup_old_entries now s) := by
  unfold cleanup_old_entries
  split
  · exact keys_cleanupRequests_nodup now s.requests hnd
  · exact hnd

theorem keysNodup_set (s : RLState) (ip : String) (w : List Nat) (hnd : keysNodup s) :
    keysNodup (setRequests s ip w) :=
  keys_setAssoc_nodup s.requests ip w hnd

theorem getRequests_set_same (s : RLState) (ip : String) (w : List Nat) :
    getRequests (setRequests s ip w) ip = w :=
  getAssoc_setAssoc_same s.requests ip w

theorem getRequests_set_ne (s : RLState) (ip j : String) (w : List Nat)
    (hj : (j == ip) = false) :
    getRequests (setRequests s ip w) j = getRequests s j :=
  getAssoc_setAssoc_ne s.requests ip j w hj

theorem getRequests_cleanup (now : Nat) (s : RLState) (ip : String) (hnd : keysNodup s) :
    getRequests (cleanup_old_entries now s) ip
      = if 300 < (now - s.lastCleanup) % 86400
        then (getRequests s ip).filter (fun t => decide (now < t + 2 * RATE_LIMIT_WINDOW))
        else getRequests s ip := by
  unfold cleanup_old_entries
  split
  · exact getAssoc_cleanupRequests now s.requests ip hnd
  · rfl

theorem filter_window_of_filter_double (now : Nat) (l : List Nat) :
    (l.filter (fun t => decide (now < t + 2 * RATE_LIMIT_WINDOW))).filter
        (fun t => decide (now < t + RATE_LIMIT_WINDOW))
      = l.filter (fun t => decide (now < t + RATE_LIMIT_WINDOW)) := by
  rw [List.filter_filter]
  apply List.filter_congr
  intro t ht
  cases h : decide (now < t + RATE_LIMIT_WINDOW)
  · simp
  · simp only [Bool.true_and]
    simp only [decide_eq_true_eq] at h ⊢
    unfold RATE_LIMIT_WINDOW at h ⊢
    omega

/-- The window actually tested by `check_rate_limit ip now s`: the client's
stored timestamps younger than `now - RATE_LIMIT_WINDOW`. -/
def purgedWindow (s : RLState) (ip : String) (now : Nat) : List Nat :=
  (getRequests s ip).filter (fun t => decide (now < t + RATE_LIMIT_WINDOW))

/-- Behaviour of one `check_rate_limit` call: the admission bit is the
negation of "purged window already full", the caller's stored window becomes
the purged window (plus `now` when admitted), key uniqueness is preserved,
and any other client's window is exactly what the opportunistic cleanup left
of it. -/
theorem check_rate_limit_spec (ip : String) (now : Nat) (s : RLState) (hnd : keysNodup s) :
    ((check_rate_limit ip now s).1
        = !decide (RATE_LIMIT_MAX_REQUESTS ≤ (purgedWindow s ip now).length))
    ∧ getRequests (check_rate_limit ip now s).2 ip
        = (if RATE_LIMIT_MAX_REQUESTS ≤ (purgedWindow s ip now).length
           then purgedWindow s ip now
           else purgedWindow s ip now ++ [now])
    ∧ keysNodup (check_rate_limit ip now s).2
    ∧ (∀ j, (j == ip) = false →
        getRequests (check_rate_limit ip now s).2 j
          = getRequests (cleanup_old_entries now s) j) := by
  have hnd1 : keysNodup (cleanup_old_entries now s) := keysNodup_cleanup now s hnd
  have hpurge : (getRequests (cleanup_old_entries now s) ip).filter
      (fun t => decide (now < t + RATE_LIMIT_WINDOW)) = purgedWindow s ip now := by
    rw [getRequests_cleanup now s ip hnd]
    unfold purgedWindow
    split
    · exact filter_window_of_filter_double now (getRequests s ip)
    · rfl
  simp only [check_rate_limit]
  rw [hpurge]
  by_cases hlen : RATE_LIMIT_MAX_REQUESTS ≤ (purgedWindow s ip now).length
  · rw [if_pos hlen, if_pos hlen]
    refine ⟨by simp [hlen], ?_, ?_, ?_⟩
    · exact getRequests_set_same _ ip _
    · exact keysNodup_set _ ip _ hnd1
    · intro j hj
      exact getRequests_set_ne _ ip j _ hj
  · rw [if_neg hlen, if_neg hlen]
    refine ⟨by simp [hlen], ?_, ?_, ?_⟩
    · exact getRequests_set_same _ ip _
    · exact keysNodup_set _ ip _ (keysNodup_set _ ip _ hnd1)
    · intro j hj
      rw [getRequests_set_ne _ ip j _ hj, getRequests_set_ne _ ip j _ hj]

/-! ### Sequences of admission checks -/

theorem runChecks_append (ip : String) (l1 l2 : List Nat) (s : RLState) :
    runChecks ip (l1 ++ l2) s
      = ((runChecks ip l1 s).1 ++ (runChecks ip l2 (runChecks ip l1 s).2).1,
         (runChecks ip l2 (runChecks ip l1 s).2).2) := by
  induction l1 generalizing s with
  | nil => simp [runChecks]
  | cons t rest ih => simp [runChecks, ih]

/-- While a fresh-window client has made fewer than
`RATE_LIMIT_MAX_REQUESTS` requests, and all call times stay within
`RATE_LIMIT_WINDOW` of every stored timestamp, every check is admitted and
the stored window accumulates the call times in order. -/
theorem runChecks_all_admitted (ip : String) (ts : List Nat) :
    ∀ (ws : List Nat) (s : RLState), keysNodup s → getRequests s ip = ws →
    (∀ t ∈ ws, ∀ u ∈ ts, u < t + RATE_LIMIT_WINDOW) →
    List.Pairwise (fun a b => b < a + RATE_LIMIT_WINDOW) ts →
    ws.length + ts.length ≤ RATE_LIMIT_MAX_REQUESTS →
    (runChecks ip ts s).1 = List.replicate ts.length true
    ∧ getRequests (runChecks ip ts s).2 ip = ws ++ ts
    ∧ keysNodup (runChecks ip ts s).2 := by
  induction ts with
  | nil =>
    intro ws s hnd hget _ _ _
    refine ⟨rfl, by simp [runChecks, hget], hnd⟩
  | cons u rest ih =>
    intro ws s hnd hget hcross hts hcount
    obtain ⟨hbit, hwin, hnd2, _⟩ := check_rate_limit_spec ip u s hnd
    have hpw : purgedWindow s ip u = ws := by
      unfold purgedWindow
      rw [hget]
      apply List.filter_eq_self.mpr
      intro t ht
      simp only [decide_eq_true_eq]
      exact hcross t ht u (List.mem_cons_self u rest)
    have hlt : ¬ (RATE_LIMIT_MAX_REQUESTS ≤ (purgedWindow s ip u).length) := by
      rw [hpw]
      simp only [List.length_cons] at hcount
      omega
    have hbit' : (check_rate_limit ip u s).1 = true := by
      rw [hbit]
      simp [hlt]
    have hwin' : getRequests (check_rate_limit ip u s).2 ip = ws ++ [u] := by
      rw [hwin, if_neg hlt, hpw]
    have hcross' : ∀ t ∈ ws ++ [u], ∀ v ∈ rest, v < t + RATE_LIMIT_WINDOW := by
      intro t ht v hv
      rcases List.mem_append.mp ht with h | h
      · exact hcross t h v (List.mem_cons_of_mem u hv)
      · have htu : t = u := by simpa using h
        subst htu
        exact (List.pairwise_cons.mp hts).1 v hv
    have hts' := (List.pairwise_cons.mp hts).2
    have hcount' : (ws ++ [u]).length + rest.length ≤ RATE_LIMIT_MAX_REQUESTS := by
      simp only [List.length_append, List.length_cons, List.length_nil] at hcount ⊢
      omega
    obtain ⟨h1, h2, h3⟩ :=
      ih (ws ++ [u]) (check_rate_limit ip u s).2 hnd2 hwin' hcross' hts' hcount'
    refine ⟨?_, ?_, ?_⟩
    · simp [runChecks, hbit', h1, List.replicate_succ]
    · simp only [runChecks]
      rw [h2, List.append_assoc]
      rfl
    · simpa [runChecks] using h3

/-! ## Filename sanitizer (`app.py` lines 111-118; `app (1).py` lines 70-73
has the same body).  The regex classes are modelled over the ASCII alphabet:
`\w` is letter/digit/underscore, `\s` is whitespace. -/

/-- Membership in the Python regex class `\w` (letters, digits, underscore). -/
def isWordChar (c : Char) : Bool := c.isAlphanum || c == '_'

/-- Membership in the Python regex class `[-\s]` (whitespace or hyphen). -/
def isSepChar (c : Char) : Bool := c.isWhitespace || c == '-'

/-- `re.sub(r'[-\s]+', '_', s)`: each maximal run of separator characters
becomes a single underscore.  `prevSep` records whether the previous
character belonged to the run currently being replaced. -/
def collapseSeps (prevSep : Bool) : List Char → List Char
  | [] => []
  | c :: cs =>
    if isSepChar c then
      if prevSep then collapseSeps true cs
      else '_' :: collapseSeps true cs
    else c :: collapseSeps false cs

/-- `sanitize_filename(text, max_length)` (`app.py` lines 111-118): empty
(falsy) input maps to `"video"`; otherwise drop every character outside
`[\w\s-]`, collapse separator runs to `_`, and truncate to `max_length`.
The Python default for `max_length` is 100 and every call site in the
repository uses the default. -/
def sanitize_filename (text : String) (maxLength : Nat) : String :=
  if text.isEmpty then "video"
  else
    String.mk ((collapseSeps false
      (text.toList.filter (fun c => isWordChar c || isSepChar c))).take maxLength)

/-! ## URL validation (`app.py` lines 120-144; `app (1).py` lines 75-82 is
the same up to a shorter blocked list and two extra platforms).  The
`validators.url(url)` call is an external library and enters the model as
the oracle `urlOk`. -/

/-- Prefix test on character lists (`needle` begins `hay`). -/
def charsPrefixOf : List Char → List Char → Bool
  | [], _ => true
  | _ :: _, [] => false
  | p :: ps, c :: cs => p == c && charsPrefixOf ps cs

/-- Python's `pat in hay` substring test on character lists. -/
def hasSubstr (pat : List Char) : List Char → Bool
  | [] => charsPrefixOf pat []
  | c :: cs => charsPrefixOf pat (c :: cs) || hasSubstr pat cs

/-- The SSRF block list of `app.py` (line 132-135). -/
def BLOCKED_PATTERNS : List (List Char) :=
  ["localhost".toList, "127.0.0.1".toList, "0.0.0.0".toList, "192.168.".toList,
   "10.0.".toList, "172.16.".toList, "169.254.".toList, "::1".toList, "file://".toList]

/-- `Config.SUPPORTED_PLATFORMS` of `app.py` (lines 47-55), in dict order. -/
def SUPPORTED_PLATFORMS : List (List Char × String) :=
  [("tiktok.com".toList, "TikTok"), ("youtube.com".toList, "YouTube"),
   ("youtu.be".toList, "YouTube"), ("instagram.com".toList, "Instagram"),
   ("facebook.com".toList, "Facebook"), ("fb.watch".toList, "Facebook"),
   ("likee.video".toList, "Likee")]

/-- `validate_url(url)` (`app.py` lines 120-144): syntactic check
(`validators.url`, the oracle `urlOk`), then the SSRF block list on the
lower-cased URL, then the first supported platform whose domain occurs in
the lower-cased URL. -/
def validate_url (urlOk : Bool) (url : String) : Bool × Option String :=
  if !urlOk then (false, none)
  else
    let urlLower := url.toList.map Char.toLower
    if BLOCKED_PATTERNS.any (fun pat => hasSubstr pat urlLower) then (false, none)
    else
      match SUPPORTED_PLATFORMS.find? (fun d => hasSubstr d.1 urlLower) with
      | some d => (true, some d.2)
      | none => (false, none)

/-! ## Workspace and streaming (`app.py` lines 146-165 and 409-496,
`app1.py` lines 38-74).  The filesystem state of one request is whether its
artifact file and its temp directory exist; a byte is a `Nat`. -/

/-- Filesystem state of one request's workspace. -/
structure FS where
  fileExists : Bool
  dirExists : Bool
deriving DecidableEq

/-- The cleanup block the source repeats (`stream_file_and_cleanup`'s
`finally` and the handlers' `except` blocks): `os.remove(file_path)` if the
file exists, then `os.rmdir(temp_dir)` if the directory exists; `os.rmdir`
fails on a non-empty directory and every failure is swallowed. -/
def cleanupWorkspace (fs : FS) : FS :=
  let fs1 := if fs.fileExists then { fs with fileExists := false } else fs
  if fs1.dirExists then
    (if fs1.fileExists then fs1 else { fs1 with dirExists := false })
  else fs1

/-- A workspace with its cleanup instrumentation: `releases` counts how
many times the cleanup block ran for this request. -/
structure WS where
  fs : FS
  releases : Nat
deriving DecidableEq

/-- Run the cleanup block once. -/
def releaseWorkspace (w : WS) : WS :=
  { fs := cleanupWorkspace w.fs, releases := w.releases + 1 }

/-- What `ydl.download([url])` did: returned normally having written the
artifact or not (`ok wrote content`), raised `yt_dlp.utils.DownloadError`,
or raised some other exception. -/
inductive GatewayResult where
  | ok (wrote : Bool) (content : List Nat)
  | downloadError
  | otherError
deriving DecidableEq

/-- `f.read(CHUNK_SIZE)` loop: the chunks produced by reading a file of the
given content in `CHUNK_SIZE`-byte reads until a read returns empty. -/
def readChunks : List Nat → List (List Nat)
  | [] => []
  | b :: bs => (b :: bs).take CHUNK_SIZE :: readChunks ((b :: bs).drop CHUNK_SIZE)
termination_by content => content.length
decreasing_by
  simp only [List.length_drop, List.length_cons]
  unfold CHUNK_SIZE
  omega

/-- `stream_file_and_cleanup(file_path, temp_dir)` (`app.py` lines
146-165) as consumed by the response: the generator yields the file's
chunks — all of them on normal completion (`abort = none`), a prefix when
the consumer closes the generator after `k` chunks (client disconnect or
mid-stream error) — and its `finally` block runs the cleanup exactly once
in either case. -/
def stream_file_and_cleanup (content : List Nat) (abort : Option Nat) (w : WS) :
    List (List Nat) × WS :=
  let sent := match abort with
    | none => readChunks content
    | some k => (readChunks content).take k
  (sent, releaseWorkspace w)

/-- Observable outcome of one download handler run, after the handler and
(on the success path) its streaming generator have finished. -/
structure HandlerResult where
  status : Nat
  detail : String
  chunks : List (List Nat)
  ws : WS
deriving DecidableEq

/-- `download_video` of `app.py` (lines 409-496) from the point where the
workspace exists (`tempfile.mkdtemp()` has run), on gateway outcome `g`:
* gateway wrote the file: return the streaming response
  (`stream_file_and_cleanup`, which cleans up in its `finally`);
* gateway returned but the file is missing: `HTTPException(500)` is raised,
  caught by `except Exception`, which cleans up and re-raises a 500;
* `DownloadError`: its `except` block cleans up and raises 422;
* any other exception: `except Exception` cleans up and raises 500. -/
def download_video (g : GatewayResult) (abort : Option Nat) : HandlerResult :=
  match g with
  | .ok wrote content =>
    if wrote then
      let r := stream_file_and_cleanup content abort ⟨⟨true, true⟩, 0⟩
      { status := 200, detail := "", chunks := r.1, ws := r.2 }
    else
      { status := 500, detail := "An error occurred during download. Please try again.",
        chunks := [], ws := releaseWorkspace ⟨⟨false, true⟩, 0⟩ }
  | .downloadError =>
    { status := 422,
      detail := "Video download failed. Video may be private, geo-restricted, or too large (50MB limit).",
      chunks := [], ws := releaseWorkspace ⟨⟨false, true⟩, 0⟩ }
  | .otherError =>
    { status := 500, detail := "An error occurred during download. Please try again.",
      chunks := [], ws := releaseWorkspace ⟨⟨false, true⟩, 0⟩ }

/-- `download` of `app1.py` (lines 38-74) from the point where
`tempfile.mkdtemp()` has run.  There is no `try`/`except` around the
gateway call and no `try`/`finally` in the generator:
* gateway wrote the file: stream; the cleanup lines sit after the read
  loop, so they run on normal completion (including a close after the last
  chunk, when the generator has already finished) but not when the
  generator is closed strictly mid-stream;
* gateway returned but the file is missing: `HTTPException(400)` with no
  cleanup;
* gateway raised: the exception propagates (server answers 500) with no
  cleanup. -/
def app1_download (g : GatewayResult) (abort : Option Nat) : HandlerResult :=
  match g with
  | .ok wrote content =>
    if wrote then
      match abort with
      | none =>
        { status := 200, detail := "", chunks := readChunks content,
          ws := releaseWorkspace ⟨⟨true, true⟩, 0⟩ }
      | some k =>
        if k < (readChunks content).length then
          { status := 200, detail := "", chunks := (readChunks content).take k,
            ws := ⟨⟨true, true⟩, 0⟩ }
        else
          { status := 200, detail := "", chunks := readChunks content,
            ws := releaseWorkspace ⟨⟨true, true⟩, 0⟩ }
    else
      { status := 400, detail := "Download failed", chunks := [],
        ws := ⟨⟨false, true⟩, 0⟩ }
  | .downloadError =>
    { status := 500, detail := "Internal Server Error", chunks := [],
      ws := ⟨⟨false, true⟩, 0⟩ }
  | .otherError =>
    { status := 500, detail := "Internal Server Error", chunks := [],
      ws := ⟨⟨false, true⟩, 0⟩ }

/-- The HTTP 429 detail of `check_rate_limit` (`app.py` line 101). -/
def detail429 : String :=
  "Too many requests. Please wait " ++ toString RATE_LIMIT_WINDOW
    ++ " seconds before trying again."

/-- Observable outcome of one `GET /download` request. -/
structure EndpointResult where
  status : Nat
  detail : String
  chunks : List (List Nat)
  ws : WS
  workspaceCreated : Bool
  gatewayCalled : Bool
  rl : RLState
deriving DecidableEq

/-- The `/download` endpoint of `app.py` (lines 409-496): rate limit check
(HTTP 429 on rejection), then `validate_url` (HTTP 400 on failure), and
only then `tempfile.mkdtemp()` and the gateway call. -/
def download_endpoint (ip : String) (now : Nat) (urlOk : Bool) (url : String)
    (g : GatewayResult) (abort : Option Nat) (s : RLState) : EndpointResult :=
  let r := check_rate_limit ip now s
  if !r.1 then
    { status := 429, detail := detail429, chunks := [], ws := ⟨⟨false, false⟩, 0⟩,
      workspaceCreated := false, gatewayCalled := false, rl := r.2 }
  else if !(validate_url urlOk url).1 then
    { status := 400, detail := "Invalid URL or unsupported platform", chunks := [],
      ws := ⟨⟨false, false⟩, 0⟩, workspaceCreated := false, gatewayCalled := false,
      rl := r.2 }
  else
    let h := download_video g abort
    { status := h.status, detail := h.detail, chunks := h.chunks, ws := h.ws,
      workspaceCreated := true, gatewayCalled := true, rl := r.2 }

/-! ### Streaming lemmas -/

theorem readChunks_eq_nil_iff (c : List Nat) : readChunks c = [] ↔ c = [] := by
  cases c with
  | nil => simp [readChunks]
  | cons b bs => simp [readChunks]

theorem readChunks_flatten (c : List Nat) : (readChunks c).flatten = c := by
  cases c with
  | nil => simp [readChunks]
  | cons b bs =>
    have ih := readChunks_flatten ((b :: bs).drop CHUNK_SIZE)
    simp only [readChunks, List.flatten_cons]
    rw [ih, List.take_append_drop]
termination_by c.length
decreasing_by
  simp only [List.length_drop, List.length_cons]
  unfold CHUNK_SIZE
  omega

theorem readChunks_dropLast_sized (c : List Nat) :
    ∀ chunk ∈ (readChunks c).dropLast, chunk.length = CHUNK_SIZE := by
  cases c with
  | nil =>
    intro ch h
    simp [readChunks] at h
  | cons b bs =>
    intro ch h
    have ih := readChunks_dropLast_sized ((b :: bs).drop CHUNK_SIZE)
    simp only [readChunks] at h
    cases hd : readChunks ((b :: bs).drop CHUNK_SIZE) with
    | nil =>
      rw [hd] at h
      simp at h
    | cons x xs =>
      rw [hd] at h
      rw [List.dropLast_cons₂] at h
      rcases List.mem_cons.mp h with h | h
      · subst h
        have hne : (b :: bs).drop CHUNK_SIZE ≠ [] := by
          intro hc
          rw [hc] at hd
          simp [readChunks] at hd
        have hlt : CHUNK_SIZE < (b :: bs).length := by
          by_contra hc
          exact hne (List.drop_eq_nil_of_le (by omega))
        rw [List.length_take]
        omega
      · exact ih ch (by rw [hd]; exact h)
termination_by c.length
decreasing_by
  simp only [List.length_drop, List.length_cons]
  unfold CHUNK_SIZE
  omega

/-! ### Sanitizer lemmas -/

theorem collapseSeps_word (l : List Char) :
    ∀ (b : Bool), (∀ c ∈ l, (isWordChar c || isSepChar c) = true) →
    ∀ c ∈ collapseSeps b l, isWordChar c = true := by
  induction l with
  | nil =>
    intro b _ c hc
    simp [collapseSeps] at hc
  | cons a rest ih =>
    intro b hl c hc
    have hrest : ∀ x ∈ rest, (isWordChar x || isSepChar x) = true := by
      intro x hx
      exact hl x (List.mem_cons_of_mem a hx)
    simp only [collapseSeps] at hc
    by_cases ha : isSepChar a = true
    · rw [if_pos ha] at hc
      cases b with
      | true =>
        rw [if_pos rfl] at hc
        exact ih true hrest c hc
      | false =>
        rw [if_neg (by simp)] at hc
        rcases List.mem_cons.mp hc with h | h
        · rw [h]
          decide
        · exact ih true hrest c h
    · rw [if_neg ha] at hc
      rcases List.mem_cons.mp hc with h | h
      · rw [h]
        have h2 : (isWordChar a || isSepChar a) = true := hl a (List.mem_cons_self a rest)
        cases hw : isWordChar a
        · rw [hw] at h2
          simp at h2
          exact absurd h2 ha
        · rfl
      · exact ih false hrest c h

theorem hasClient_setAssoc_ne (reqs : List (String × List Nat)) (ip j : String)
    (w : List Nat) (hj : (j == ip) = false) :
    ((setAssoc reqs ip w).any (fun p => p.1 == j)) = (reqs.any (fun p => p.1 == j)) := by
  have hne : j ≠ ip := by simpa using hj
  unfold setAssoc
  by_cases h : reqs.any (fun p => p.1 == ip) = true
  · rw [if_pos h]
    clear h
    induction reqs with
    | nil => rfl
    | cons a rest ih =>
      rw [List.map_cons, List.any_cons, List.any_cons, ih]
      congr 1
      by_cases ha : (a.1 == ip) = true
      · rw [if_pos ha, eq_of_beq ha]
      · rw [if_neg ha]
  · rw [if_neg h, List.any_append]
    have hipj : ((ip, w).1 == j) = false := by
      simpa using fun hc : ip = j => hne hc.symm
    simp [hipj]

/-! ## Claim theorems -/

/-- Claim C5: the concatenation of the byte chunks yielded by the streaming
responder on a full (unaborted) stream equals the artifact file's exact
byte content, and every chunk except possibly the last has exactly
`CHUNK_SIZE` bytes. -/
theorem stream_chunks_roundtrip (content : List Nat) (w : WS) :
    (stream_file_and_cleanup content none w).1.flatten = content
    ∧ ((stream_file_and_cleanup content none w).1.dropLast.all
        (fun chunk => chunk.length == CHUNK_SIZE)) = true := by
  constructor
  · simp only [stream_file_and_cleanup]
    exact readChunks_flatten content
  · simp only [stream_file_and_cleanup]
    rw [List.all_eq_true]
    intro ch hch
    have := readChunks_dropLast_sized content ch hch
    simpa using this

/-- Claim C1 (amended): for `app.py`'s download handler the workspace is
released exactly once on every exit path — normal stream completion,
mid-stream abort, missing artifact, `DownloadError`, or any other
exception — and afterwards neither the artifact file nor the workspace
directory exists.  (`app1.py`'s handler, also cited by the claim, does not
satisfy this; see the counterexample.) -/
theorem workspace_released_once (g : GatewayResult) (abort : Option Nat) :
    (download_video g abort).ws.releases = 1
    ∧ (download_video g abort).ws.fs.fileExists = false
    ∧ (download_video g abort).ws.fs.dirExists = false := by
  cases g with
  | ok wrote content =>
    cases wrote with
    | false =>
      simp [download_video, releaseWorkspace, cleanupWorkspace]
    | true =>
      cases abort <;>
        simp [download_video, stream_file_and_cleanup, releaseWorkspace, cleanupWorkspace]
  | downloadError =>
    simp [download_video, releaseWorkspace, cleanupWorkspace]
  | otherError =>
    simp [download_video, releaseWorkspace, cleanupWorkspace]

/-- Claim C1 counterexample: in `app1.py`'s handler (cited by the claim), a
failed download (`yt_dlp` raising) leaves the workspace directory on disk
and the cleanup block never runs — the workspace is not released on this
exit path, so the claim as stated is false for the repository's code. -/
theorem app1_workspace_leak_on_download_error :
    (app1_download GatewayResult.downloadError none).ws.releases = 0
    ∧ (app1_download GatewayResult.downloadError none).ws.fs.dirExists = true := by
  decide

/-- Claim C4 (amended): in `app.py`, when the gateway reports success but
no artifact file exists, the handler answers HTTP 500 (a server-side
fault), yields no chunk, runs the cleanup exactly once, and the (empty)
workspace directory is removed.  (`app1.py`, also cited by the claim,
answers 400 and leaks the directory; see the counterexample.) -/
theorem missing_artifact_500_and_cleanup (content : List Nat) (abort : Option Nat) :
    (download_video (GatewayResult.ok false content) abort).status = 500
    ∧ (download_video (GatewayResult.ok false content) abort).chunks = []
    ∧ (download_video (GatewayResult.ok false content) abort).ws.releases = 1
    ∧ (download_video (GatewayResult.ok false content) abort).ws.fs.fileExists = false
    ∧ (download_video (GatewayResult.ok false content) abort).ws.fs.dirExists = false := by
  simp [download_video, releaseWorkspace, cleanupWorkspace]

/-- Claim C4 counterexample: in `app1.py` (cited by the claim at lines
55-56), a claimed-successful download with no artifact raises
`HTTPException(400, "Download failed")` — a client-input status, not a 500
— and the empty workspace directory is never removed. -/
theorem app1_missing_artifact_400_and_leak :
    (app1_download (GatewayResult.ok false []) none).status = 400
    ∧ (app1_download (GatewayResult.ok false []) none).ws.fs.dirExists = true
    ∧ (app1_download (GatewayResult.ok false []) none).ws.releases = 0 := by
  decide

/-- Claim C2: on every `check_rate_limit` call (for a map with unique keys,
as a Python dict guarantees), every stored timestamp older than
`now - RATE_LIMIT_WINDOW` is purged from the client's stored window; the
call rejects if and only if the purged window already holds at least
`RATE_LIMIT_MAX_REQUESTS` timestamps; otherwise `now` is appended and the
call admits. -/
theorem check_rate_limit_purge_and_decision (ip : String) (now : Nat) (s : RLState)
    (hnd : keysNodup s) :
    ((check_rate_limit ip now s).1 = false
      ↔ RATE_LIMIT_MAX_REQUESTS ≤ (purgedWindow s ip now).length)
    ∧ (∀ t ∈ getRequests s ip, t + RATE_LIMIT_WINDOW ≤ now →
        t ∉ getRequests (check_rate_limit ip now s).2 ip)
    ∧ ((check_rate_limit ip now s).1 = true →
        getRequests (check_rate_limit ip now s).2 ip = purgedWindow s ip now ++ [now])
    ∧ ((check_rate_limit ip now s).1 = false →
        getRequests (check_rate_limit ip now s).2 ip = purgedWindow s ip now) := by
  obtain ⟨hbit, hwin, _, _⟩ := check_rate_limit_spec ip now s hnd
  have hnotmem : ∀ t ∈ getRequests s ip, t + RATE_LIMIT_WINDOW ≤ now →
      t ∉ purgedWindow s ip now := by
    intro t _ hold hmem
    have := (List.mem_filter.mp hmem).2
    simp only [decide_eq_true_eq] at this
    omega
  refine ⟨?_, ?_, ?_, ?_⟩
  · rw [hbit]
    cases h : decide (RATE_LIMIT_MAX_REQUESTS ≤ (purgedWindow s ip now).length)
    · simpa using of_decide_eq_false h
    · simpa using of_decide_eq_true h
  · intro t hts hold hmem
    rw [hwin] at hmem
    by_cases hlen : RATE_LIMIT_MAX_REQUESTS ≤ (purgedWindow s ip now).length
    · rw [if_pos hlen] at hmem
      exact hnotmem t hts hold hmem
    · rw [if_neg hlen] at hmem
      rcases List.mem_append.mp hmem with h | h
      · exact hnotmem t hts hold h
      · have htn : t = now := by simpa using h
        unfold RATE_LIMIT_WINDOW at hold
        omega
  · intro hadm
    rw [hwin]
    rw [hbit] at hadm
    have hlen : ¬ RATE_LIMIT_MAX_REQUESTS ≤ (purgedWindow s ip now).length := by
      intro hc
      simp [hc] at hadm
    rw [if_neg hlen]
  · intro hrej
    rw [hwin]
    rw [hbit] at hrej
    have hlen : RATE_LIMIT_MAX_REQUESTS ≤ (purgedWindow s ip now).length := by
      by_contra hc
      simp [hc] at hrej
    rw [if_pos hlen]

/-- Witness for C2: client `"c"` stored `[5, 90]`, checked at time 100 with
window 20: timestamp 5 is purged, 90 is kept, the call admits and stores
`[90, 100]`. -/
theorem check_rate_limit_purge_and_decision_witness :
    ((check_rate_limit "c" 100 ⟨[("c", [5, 90])], 0⟩).1 = false
      ↔ RATE_LIMIT_MAX_REQUESTS
          ≤ (purgedWindow ⟨[("c", [5, 90])], 0⟩ "c" 100).length)
    ∧ (∀ t ∈ getRequests ⟨[("c", [5, 90])], 0⟩ "c", t + RATE_LIMIT_WINDOW ≤ 100 →
        t ∉ getRequests (check_rate_limit "c" 100 ⟨[("c", [5, 90])], 0⟩).2 "c")
    ∧ ((check_rate_limit "c" 100 ⟨[("c", [5, 90])], 0⟩).1 = true →
        getRequests (check_rate_limit "c" 100 ⟨[("c", [5, 90])], 0⟩).2 "c"
          = purgedWindow ⟨[("c", [5, 90])], 0⟩ "c" 100 ++ [100])
    ∧ ((check_rate_limit "c" 100 ⟨[("c", [5, 90])], 0⟩).1 = false →
        getRequests (check_rate_limit "c" 100 ⟨[("c", [5, 90])], 0⟩).2 "c"
          = purgedWindow ⟨[("c", [5, 90])], 0⟩ "c" 100) :=
  check_rate_limit_purge_and_decision "c" 100 ⟨[("c", [5, 90])], 0⟩ (by decide)

/-- Claim C3: a fresh client issuing `RATE_LIMIT_MAX_REQUESTS + 1`
sequential admission checks whose times all lie within `RATE_LIMIT_WINDOW`
of every earlier one gets its first `RATE_LIMIT_MAX_REQUESTS` checks
admitted and the last rejected; and any later check at least
`RATE_LIMIT_WINDOW` after the first request's time is admitted again. -/
theorem sixteen_requests_fresh_client (ip : String) (lc : Nat) (pre : List Nat)
    (tLast : Nat) (hlen : pre.length = RATE_LIMIT_MAX_REQUESTS)
    (hspan : List.Pairwise (fun a b => b < a + RATE_LIMIT_WINDOW) (pre ++ [tLast])) :
    (runChecks ip (pre ++ [tLast]) ⟨[], lc⟩).1
      = List.replicate RATE_LIMIT_MAX_REQUESTS true ++ [false]
    ∧ (∀ t0 rest0, pre = t0 :: rest0 → ∀ tNext, t0 + RATE_LIMIT_WINDOW ≤ tNext →
        (check_rate_limit ip tNext (runChecks ip (pre ++ [tLast]) ⟨[], lc⟩).2).1
          = true) := by
  obtain ⟨hpre, _, hcross⟩ := List.pairwise_append.mp hspan
  have hnd0 : keysNodup (⟨[], lc⟩ : RLState) := by
    simp [keysNodup]
  obtain ⟨hres, hwin, hndf⟩ :=
    runChecks_all_admitted ip pre [] ⟨[], lc⟩ hnd0 rfl
      (by intro t ht; exact absurd ht (List.not_mem_nil t)) hpre (by simp [hlen])
  rw [List.nil_append] at hwin
  obtain ⟨hbitL, hwinL, hndL, _⟩ :=
    check_rate_limit_spec ip tLast (runChecks ip pre ⟨[], lc⟩).2 hndf
  have hpwL : purgedWindow (runChecks ip pre ⟨[], lc⟩).2 ip tLast = pre := by
    unfold purgedWindow
    rw [hwin]
    apply List.filter_eq_self.mpr
    intro t ht
    simp only [decide_eq_true_eq]
    exact hcross t ht tLast (List.mem_singleton.mpr rfl)
  have hfull : RATE_LIMIT_MAX_REQUESTS ≤ (purgedWindow (runChecks ip pre ⟨[], lc⟩).2 ip tLast).length := by
    rw [hpwL, hlen]
  have hbitL' : (check_rate_limit ip tLast (runChecks ip pre ⟨[], lc⟩).2).1 = false := by
    rw [hbitL]
    simp [hfull]
  have hwinL' : getRequests (check_rate_limit ip tLast (runChecks ip pre ⟨[], lc⟩).2).2 ip
      = pre := by
    rw [hwinL, if_pos hfull, hpwL]
  have hsplit := runChecks_append ip pre [tLast] ⟨[], lc⟩
  constructor
  · rw [hsplit]
    simp only [runChecks]
    rw [hres, hbitL']
    rw [hlen]
  · intro t0 rest0 hpre0 tNext ht
    rw [hsplit]
    simp only [runChecks]
    obtain ⟨hbitN, _, _, _⟩ :=
      check_rate_limit_spec ip tNext
        (check_rate_limit ip tLast (runChecks ip pre ⟨[], lc⟩).2).2 hndL
    rw [hbitN]
    have hlenN : (purgedWindow (check_rate_limit ip tLast (runChecks ip pre ⟨[], lc⟩).2).2 ip tNext).length
        < RATE_LIMIT_MAX_REQUESTS := by
      unfold purgedWindow
      rw [hwinL', hpre0]
      rw [List.filter_cons_of_neg (by simp; omega)]
      have h14 : rest0.length + 1 = RATE_LIMIT_MAX_REQUESTS := by
        rw [hpre0] at hlen
        simpa using hlen
      have := List.length_filter_le (fun t => decide (tNext < t + RATE_LIMIT_WINDOW)) rest0
      omega
    simp [Nat.not_le.mpr hlenN]

/-- Witness for C3: fifteen requests at time 0 and a sixteenth at time 5
(all within a 5-second span, window 20) from a fresh client: the first
fifteen are admitted, the sixteenth rejected, and a check at time 20
(= the first request's time plus the window) is admitted again. -/
theorem sixteen_requests_fresh_client_witness :
    (runChecks "w" (List.replicate 15 0 ++ [5]) ⟨[], 0⟩).1
      = List.replicate RATE_LIMIT_MAX_REQUESTS true ++ [false]
    ∧ (∀ t0 rest0, List.replicate 15 0 = t0 :: rest0 →
        ∀ tNext, t0 + RATE_LIMIT_WINDOW ≤ tNext →
        (check_rate_limit "w" tNext
            (runChecks "w" (List.replicate 15 0 ++ [5]) ⟨[], 0⟩).2).1 = true) :=
  sixteen_requests_fresh_client "w" 0 (List.replicate 15 0) 5 (by decide) (by decide)

theorem hasClient_set_ne (s : RLState) (ip j : String) (w : List Nat)
    (hj : (j == ip) = false) :
    hasClient (setRequests s ip w) j = hasClient s j :=
  hasClient_setAssoc_ne s.requests ip j w hj

/-- Claim C6 (amended): `app.py`'s `/download` endpoint maps failure causes
to statuses — rate-limited: 429 with a detail naming the
`RATE_LIMIT_WINDOW`-second wait; gateway `DownloadError`: 422; internal
fault (missing artifact after claimed success, or any other exception):
500.  (`app1.py`, also cited by the claim, performs no rate limiting and
answers 400 for a missing artifact; see the counterexample.) -/
theorem download_endpoint_status_mapping (ip : String) (now : Nat) (urlOk : Bool)
    (url : String) (g : GatewayResult) (abort : Option Nat) (s : RLState)
    (hvalid : (validate_url urlOk url).1 = true) :
    ((check_rate_limit ip now s).1 = false →
      (download_endpoint ip now urlOk url g abort s).status = 429
      ∧ (download_endpoint ip now urlOk url g abort s).detail = detail429)
    ∧ hasSubstr ("wait " ++ toString RATE_LIMIT_WINDOW ++ " seconds").toList
        detail429.toList = true
    ∧ ((check_rate_limit ip now s).1 = true →
        (g = GatewayResult.downloadError →
          (download_endpoint ip now urlOk url g abort s).status = 422)
        ∧ (∀ content, g = GatewayResult.ok false content →
            (download_endpoint ip now urlOk url g abort s).status = 500)
        ∧ (g = GatewayResult.otherError →
            (download_endpoint ip now urlOk url g abort s).status = 500)) := by
  refine ⟨?_, by decide, ?_⟩
  · intro hrej
    constructor <;> simp [download_endpoint, hrej]
  · intro hadm
    refine ⟨?_, ?_, ?_⟩
    · intro hg
      subst hg
      simp [download_endpoint, hadm, hvalid, download_video]
    · intro content hg
      subst hg
      simp [download_endpoint, hadm, hvalid, download_video]
    · intro hg
      subst hg
      simp [download_endpoint, hadm, hvalid, download_video]

/-- Witness for C6: fresh limiter state, a valid TikTok URL, and a gateway
`DownloadError`. -/
theorem download_endpoint_status_mapping_witness :
    ((check_rate_limit "a" 0 ⟨[], 0⟩).1 = false →
      (download_endpoint "a" 0 true "https://tiktok.com/x"
          GatewayResult.downloadError none ⟨[], 0⟩).status = 429
      ∧ (download_endpoint "a" 0 true "https://tiktok.com/x"
          GatewayResult.downloadError none ⟨[], 0⟩).detail = detail429)
    ∧ hasSubstr ("wait " ++ toString RATE_LIMIT_WINDOW ++ " seconds").toList
        detail429.toList = true
    ∧ ((check_rate_limit "a" 0 ⟨[], 0⟩).1 = true →
        (GatewayResult.downloadError = GatewayResult.downloadError →
          (download_endpoint "a" 0 true "https://tiktok.com/x"
              GatewayResult.downloadError none ⟨[], 0⟩).status = 422)
        ∧ (∀ content, GatewayResult.downloadError = GatewayResult.ok false content →
            (download_endpoint "a" 0 true "https://tiktok.com/x"
                GatewayResult.downloadError none ⟨[], 0⟩).status = 500)
        ∧ (GatewayResult.downloadError = GatewayResult.otherError →
            (download_endpoint "a" 0 true "https://tiktok.com/x"
                GatewayResult.downloadError none ⟨[], 0⟩).status = 500)) :=
  download_endpoint_status_mapping "a" 0 true "https://tiktok.com/x"
    GatewayResult.downloadError none ⟨[], 0⟩ (by decide)

/-- Claim C6 counterexample: in `app1.py` (cited by the claim), a
claimed-successful download without an artifact — an internal fault — is
answered with status 400, not 500, so the claimed status mapping is false
for the repository's code. -/
theorem app1_missing_artifact_status_not_500 :
    (app1_download (GatewayResult.ok false [1, 2]) none).status = 400
    ∧ (app1_download (GatewayResult.ok false [1, 2]) none).status ≠ 500 := by
  decide

/-- Claim C8 (amended): on an admission-check call where the seconds
component of the elapsed time since the last cleanup
(`timedelta.seconds`, i.e. elapsed mod 86400) exceeds 300, the
opportunistic cleanup removes from the client map every other client none
of whose timestamps is within `2 * RATE_LIMIT_WINDOW` of `now` (the code's
cutoff is twice the admission window, and the calling client is re-added
by the admission itself). -/
theorem cleanup_removes_double_window_stale (ip j : String) (now : Nat) (s : RLState)
    (hnd : keysNodup s) (hj : (j == ip) = false)
    (htrig : 300 < (now - s.lastCleanup) % 86400)
    (hstale : ∀ t ∈ getRequests s j, t + 2 * RATE_LIMIT_WINDOW ≤ now) :
    hasClient (check_rate_limit ip now s).2 j = false := by
  have habsent : ((cleanup_old_entries now s).requests.any (fun p => p.1 == j)) = false := by
    unfold cleanup_old_entries
    rw [if_pos htrig]
    exact cleanupRequests_removes_stale now s.requests j hnd hstale
  have habsent' : hasClient (cleanup_old_entries now s) j = false := habsent
  simp only [check_rate_limit]
  split
  · rw [hasClient_set_ne _ _ _ _ hj]
    exact habsent'
  · rw [hasClient_set_ne _ _ _ _ hj, hasClient_set_ne _ _ _ _ hj]
    exact habsent'

/-- Witness for C8 (amended): 400 seconds after the last cleanup, client
`"j"`'s only timestamp is 5 (395 seconds stale, beyond the 40-second
cutoff), so a check by `"b"` removes `"j"` from the map. -/
theorem cleanup_removes_double_window_stale_witness :
    hasClient (check_rate_limit "b" 400 ⟨[("x", [390]), ("j", [5])], 0⟩).2 "j" = false :=
  cleanup_removes_double_window_stale "b" "j" 400 ⟨[("x", [390]), ("j", [5])], 0⟩
    (by decide) (by decide) (by decide) (by decide)

/-- Claim C8 counterexample: two concrete runs refute the claim as stated.
Scenario A: 301 seconds after the last cleanup (trigger fires), client
`"a"`'s only timestamp is 31 seconds old — outside `RATE_LIMIT_WINDOW`, so
its window is empty — yet `"a"` is retained, because the code's cleanup
cutoff is `2 * RATE_LIMIT_WINDOW`.  Scenario B: one day and one second
after the last cleanup — far more than five minutes of wall-clock time —
no cleanup runs at all, because Python's `timedelta.seconds` is the
elapsed time modulo 86400, here 1. -/
theorem cleanup_retains_stale_clients :
    ((301 : Nat) - 0 > 300
      ∧ (∀ t ∈ getRequests ⟨[("a", [270])], 0⟩ "a", ¬ (301 < t + RATE_LIMIT_WINDOW))
      ∧ hasClient (check_rate_limit "b" 301 ⟨[("a", [270])], 0⟩).2 "a" = true)
    ∧ ((86401 : Nat) - 0 > 300
      ∧ (∀ t ∈ getRequests ⟨[("a", [0])], 0⟩ "a", ¬ (86401 < t + RATE_LIMIT_WINDOW))
      ∧ hasClient (check_rate_limit "b" 86401 ⟨[("a", [0])], 0⟩).2 "a" = true) := by
  decide

/-- Claim C9: any URL containing (case-insensitively) one of the blocked
internal-address substrings is rejected by `validate_url` with
`(false, none)` — whatever the `validators.url` oracle says and even if a
supported platform domain also occurs — and, when the rate limiter admits,
the download endpoint answers 400 before creating a workspace or calling
the gateway. -/
theorem blocked_url_rejected (urlOk : Bool) (url : String) (pat : List Char)
    (hp : pat ∈ BLOCKED_PATTERNS)
    (hs : hasSubstr pat (url.toList.map Char.toLower) = true)
    (ip : String) (now : Nat) (s : RLState) (g : GatewayResult) (abort : Option Nat)
    (hadm : (check_rate_limit ip now s).1 = true) :
    validate_url urlOk url = (false, none)
    ∧ (download_endpoint ip now urlOk url g abort s).status = 400
    ∧ (download_endpoint ip now urlOk url g abort s).workspaceCreated = false
    ∧ (download_endpoint ip now urlOk url g abort s).gatewayCalled = false := by
  have hval : validate_url urlOk url = (false, none) := by
    unfold validate_url
    cases urlOk
    · rfl
    · have hany : (BLOCKED_PATTERNS.any
          (fun pat => hasSubstr pat (url.toList.map Char.toLower))) = true :=
        List.any_eq_true.mpr ⟨pat, hp, hs⟩
      simp [hany]
      intro hall
      have hs' : hasSubstr pat (List.map Char.toLower url.data) = true := hs
      rw [hall pat hp] at hs'
      simp at hs'
  refine ⟨hval, ?_, ?_, ?_⟩ <;> simp [download_endpoint, hadm, hval]

/-- Witness for C9: `"http://localhost/tiktok.com"` contains the blocked
substring `localhost` and a supported platform domain; from a fresh
limiter state the endpoint answers 400 with no workspace and no gateway
call. -/
theorem blocked_url_rejected_witness :
    validate_url true "http://localhost/tiktok.com" = (false, none)
    ∧ (download_endpoint "a" 0 true "http://localhost/tiktok.com"
        GatewayResult.downloadError none ⟨[], 0⟩).status = 400
    ∧ (download_endpoint "a" 0 true "http://localhost/tiktok.com"
        GatewayResult.downloadError none ⟨[], 0⟩).workspaceCreated = false
    ∧ (download_endpoint "a" 0 true "http://localhost/tiktok.com"
        GatewayResult.downloadError none ⟨[], 0⟩).gatewayCalled = false :=
  blocked_url_rejected true "http://localhost/tiktok.com" "localhost".toList
    (by decide) (by decide) "a" 0 ⟨[], 0⟩ GatewayResult.downloadError none (by decide)

/-- Claim C10 (amended): `sanitize_filename` returns a string of length at
most `max max_length 5` made only of word characters (letters, digits,
underscore), and maps empty input to the fixed string `"video"` whatever
`max_length` is; with the default `max_length = 100`, used by every call
site in the repository, the original bound `max_length` holds. -/
theorem sanitize_filename_bounded_word (text : String) (maxLength : Nat) :
    (sanitize_filename text maxLength).length ≤ max maxLength 5
    ∧ ((sanitize_filename text maxLength).toList.all isWordChar) = true
    ∧ sanitize_filename "" maxLength = "video" := by
  have hempty : sanitize_filename "" maxLength = "video" := by
    unfold sanitize_filename
    rw [if_pos (show ("" : String).isEmpty = true from rfl)]
  refine ⟨?_, ?_, hempty⟩
  · unfold sanitize_filename
    split
    · have h5 : ("video" : String).length = 5 := rfl
      omega
    · have hlen : (String.mk ((collapseSeps false
          (text.toList.filter (fun c => isWordChar c || isSepChar c))).take maxLength)).length
            = ((collapseSeps false
          (text.toList.filter (fun c => isWordChar c || isSepChar c))).take maxLength).length := rfl
      rw [hlen]
      have := List.length_take_le maxLength
        (collapseSeps false (text.toList.filter (fun c => isWordChar c || isSepChar c)))
      omega
  · unfold sanitize_filename
    split
    · decide
    · rw [List.all_eq_true]
      intro c hc
      have hc' : c ∈ collapseSeps false
          (text.toList.filter (fun c => isWordChar c || isSepChar c)) :=
        List.take_subset _ _ hc
      exact collapseSeps_word _ false
        (by
          intro x hx
          have := (List.mem_filter.mp hx).2
          simpa using this) c hc'

/-- Claim C10 counterexample: `sanitize_filename("", 3)` returns
`"video"`, whose length 5 exceeds the requested `max_length = 3`, so the
stated bound does not hold for every `max_length`. -/
theorem sanitize_empty_exceeds_max_length :
    sanitize_filename "" 3 = "video"
    ∧ (sanitize_filename "" 3).length = 5
    ∧ ¬ ((sanitize_filename "" 3).length ≤ 3) := by
  decide

end VideoBackend
